import Mathlib

/-!
# Verification of the streaming chat client (`src/index.ts`, final revision)

Shallow embedding of the streaming response protocol handler of the
example-web-chat repository: the conversation history, the per-line stream
decoding of `readStreamChunk`, the outcome classification of
`handleStreamingResponse`, the exponential-backoff retry loop of
`handleStreamingResponseWithRetry`, and the rollback logic of `sendWrapper`.

DOM rendering helpers (`addMessage` to the messages container,
`updateMessageContent`, `showTypingIndicator`) are pure view plumbing and are
modelled only through the effect lists the protocol layer produces
(status texts, system messages, navigation targets, parse warnings).
-/

set_option autoImplicit false

namespace Chat

/-- Left brace character, kept as a named constant. -/
def lbrace : Char := '\x7b'

/-- Right brace character, kept as a named constant. -/
def rbrace : Char := '\x7d'

/-- Modelled from the spec: the JSON values produced by the host `JSON.parse`
on the newline-delimited records of the stream (§6 recognises
`\x7b message: \x7b content: string \x7d, model?: string \x7d` and
`\x7b Credits: number \x7d`; unrecognised lines fail to parse). Numbers are
modelled as integers, which covers every record shape the service emits. -/
inductive Json where
  | null
  | bool (b : Bool)
  | num (n : Int)
  | str (s : String)
  | arr (elems : List Json)
  | obj (fields : List (String × Json))

/-- JavaScript truthiness of a parsed JSON value (`if (data.model)`,
`if (data.message && data.message.content)`). -/
def jsTruthy : Json → Bool
  | .null => false
  | .bool b => b
  | .num n => n != 0
  | .str s => s != ""
  | .arr _ => true
  | .obj _ => true

mutual

/-- Modelled from the spec: JavaScript string conversion as used by template
interpolation (`Credits used: ...`) and string concatenation
(`assistantMessage += data.message.content`). -/
def jsDisplay : Json → String
  | .null => "null"
  | .bool true => "true"
  | .bool false => "false"
  | .num n => toString n
  | .str s => s
  | .arr es => String.intercalate "," (jsDisplayList es)
  | .obj _ => "[object Object]"

/-- String conversion of array elements (`Array.prototype.toString` renders
`null` elements as the empty string). -/
def jsDisplayList : List Json → List String
  | [] => []
  | .null :: rest => "" :: jsDisplayList rest
  | e :: rest => jsDisplay e :: jsDisplayList rest

end

/-- Property access `obj[key]` on a parsed JSON value: defined members of an
object (later duplicate keys win, as in JavaScript), `undefined` (here `none`)
on every non-object and on absent keys. -/
def objGet : Json → String → Option Json
  | .obj fs, k => fs.foldl (fun acc p => if p.1 = k then some p.2 else acc) none
  | _, _ => none

/-- JSON whitespace accepted around tokens by `JSON.parse`. -/
def isJsonWs (c : Char) : Bool := c = ' ' || c = '\t' || c = '\n' || c = '\r'

/-- Drop leading JSON whitespace. -/
def skipWs : List Char → List Char
  | [] => []
  | c :: rest => if isJsonWs c then skipWs rest else c :: rest

/-- Parse the body of a JSON string literal after the opening quote, returning
the decoded characters and the input following the closing quote. -/
def parseStrChars : List Char → Option (List Char × List Char)
  | [] => none
  | c :: rest =>
    if c = '"' then some ([], rest)
    else if c = '\\' then
      match rest with
      | [] => none
      | e :: rest2 =>
        let esc : Option Char :=
          if e = '"' then some '"'
          else if e = '\\' then some '\\'
          else if e = '/' then some '/'
          else if e = 'n' then some '\n'
          else if e = 't' then some '\t'
          else if e = 'r' then some '\r'
          else if e = 'b' then some (Char.ofNat 8)
          else if e = 'f' then some (Char.ofNat 12)
          else none
        match esc with
        | none => none
        | some ch =>
          match parseStrChars rest2 with
          | none => none
          | some (s, r) => some (ch :: s, r)
    else
      match parseStrChars rest with
      | none => none
      | some (s, r) => some (c :: s, r)

/-- Decimal digit test. -/
def isDigitCh (c : Char) : Bool := '0' ≤ c && c ≤ '9'

/-- Split a leading run of decimal digits from the input. -/
def spanDigits : List Char → List Char × List Char
  | [] => ([], [])
  | c :: rest =>
    if isDigitCh c then
      let (ds, r) := spanDigits rest
      (c :: ds, r)
    else ([], c :: rest)

/-- Numeric value of a digit run. -/
def digitsToNat (ds : List Char) : Nat :=
  ds.foldl (fun acc c => acc * 10 + (c.toNat - 48)) 0

/-- Parse a JSON number (integral form; the stream's `Credits` records carry
integers). A fraction or exponent suffix is not part of the modelled record
language and is rejected. -/
def parseNum (l : List Char) : Option (Json × List Char) :=
  match l with
  | '-' :: rest =>
    match spanDigits rest with
    | ([], _) => none
    | (ds, r) =>
      match r with
      | '.' :: _ => none
      | 'e' :: _ => none
      | 'E' :: _ => none
      | _ => some (.num (-(digitsToNat ds : Int)), r)
  | _ =>
    match spanDigits l with
    | ([], _) => none
    | (ds, r) =>
      match r with
      | '.' :: _ => none
      | 'e' :: _ => none
      | 'E' :: _ => none
      | _ => some (.num (digitsToNat ds : Int), r)

mutual

/-- Fuel-indexed recursive-descent parse of one JSON value. -/
def parseVal : Nat → List Char → Option (Json × List Char)
  | 0, _ => none
  | fuel + 1, l =>
    match skipWs l with
    | [] => none
    | c :: rest =>
      if c = '"' then
        match parseStrChars rest with
        | none => none
        | some (s, r) => some (.str (String.mk s), r)
      else if c = lbrace then parseMembers fuel rest
      else if c = '[' then parseElems fuel rest
      else
        match c :: rest with
        | 't' :: 'r' :: 'u' :: 'e' :: r => some (.bool true, r)
        | 'f' :: 'a' :: 'l' :: 's' :: 'e' :: r => some (.bool false, r)
        | 'n' :: 'u' :: 'l' :: 'l' :: r => some (.null, r)
        | l2 => parseNum l2

/-- Parse the members of an object after the opening brace. -/
def parseMembers : Nat → List Char → Option (Json × List Char)
  | 0, _ => none
  | fuel + 1, l =>
    match skipWs l with
    | c :: rest =>
      if c = rbrace then some (.obj [], rest)
      else parseMembersLoop fuel (c :: rest) []
    | [] => none

/-- Parse one `"key": value` member, then either a comma and further members
or the closing brace. -/
def parseMembersLoop : Nat → List Char → List (String × Json) →
    Option (Json × List Char)
  | 0, _, _ => none
  | fuel + 1, l, acc =>
    match skipWs l with
    | '"' :: rest =>
      match parseStrChars rest with
      | none => none
      | some (k, r1) =>
        match skipWs r1 with
        | ':' :: r2 =>
          match parseVal fuel r2 with
          | none => none
          | some (v, r3) =>
            match skipWs r3 with
            | ',' :: r4 => parseMembersLoop fuel r4 (acc ++ [(String.mk k, v)])
            | c :: r4 =>
              if c = rbrace then some (.obj (acc ++ [(String.mk k, v)]), r4)
              else none
            | [] => none
        | _ => none
    | _ => none

/-- Parse the elements of an array after the opening bracket. -/
def parseElems : Nat → List Char → Option (Json × List Char)
  | 0, _ => none
  | fuel + 1, l =>
    match skipWs l with
    | ']' :: rest => some (.arr [], rest)
    | l2 => parseElemsLoop fuel l2 []

/-- Parse one array element, then either a comma and further elements or the
closing bracket. -/
def parseElemsLoop : Nat → List Char → List Json → Option (Json × List Char)
  | 0, _, _ => none
  | fuel + 1, l, acc =>
    match parseVal fuel l with
    | none => none
    | some (v, r) =>
      match skipWs r with
      | ',' :: r2 => parseElemsLoop fuel r2 (acc ++ [v])
      | ']' :: r2 => some (.arr (acc ++ [v]), r2)
      | _ => none

end

/-- Modelled from the spec: `JSON.parse` applied to one stream line —
`some` value exactly when the whole line is a single JSON value surrounded
only by whitespace. -/
def jsonParse (l : List Char) : Option Json :=
  match parseVal (2 * l.length + 2) l with
  | none => none
  | some (v, r) =>
    match skipWs r with
    | [] => some v
    | _ => none

/-- JavaScript whitespace removed by `String.prototype.trim` (the ASCII
subset, which covers every character the stream can produce here). -/
def isTrimWs (c : Char) : Bool :=
  c = ' ' || c = '\t' || c = '\n' || c = '\r' || c = '\x0b' || c = '\x0c'

/-- The check `line.trim() !== ""` is false exactly when the line is all
whitespace. -/
def isBlank (l : List Char) : Bool := l.all isTrimWs

/-- The split `decoded.split("\n")` of `readStreamChunk`: split on every newline,
keeping empty segments (JavaScript `String.prototype.split`). -/
def splitNl : List Char → List (List Char)
  | [] => [[]]
  | c :: rest =>
    if c = '\n' then [] :: splitNl rest
    else
      match splitNl rest with
      | [] => [[c]]
      | l :: ls => (c :: l) :: ls

/-- The mutable locals of one `handleStreamingResponse` stream-reading pass:
the accumulating `assistantMessage`, the most recent `handledModel`, the
`updateStatus` texts and the `console.warn` parse-warning count produced so
far. -/
structure LoopState where
  assistantMessage : String
  handledModel : String
  statuses : List String
  warnings : Nat
deriving Repr, DecidableEq

/-- Loop state at the start of a response stream. -/
def initLoop : LoopState := ⟨"", "", [], 0⟩

/-- The body of `for (const line of lines)` in `readStreamChunk`: skip blank
lines; a parse failure (or the `TypeError` of reading `.Credits` off a parsed
`null`) is caught and counted as a warning; a record with a `Credits` member
reports a status and short-circuits; otherwise a truthy `model` member updates
`handledModel` and a truthy `message.content` member extends
`assistantMessage`. -/
def processLine (s : LoopState) (line : List Char) : LoopState :=
  if isBlank line then s
  else
    match jsonParse line with
    | none => { s with warnings := s.warnings + 1 }
    | some .null => { s with warnings := s.warnings + 1 }
    | some data =>
      match objGet data "Credits" with
      | some c =>
        { s with statuses := s.statuses ++ ["Credits used: " ++ jsDisplay c] }
      | none =>
        let hm :=
          match objGet data "model" with
          | some m => if jsTruthy m then jsDisplay m else s.handledModel
          | none => s.handledModel
        match objGet data "message" with
        | some msg =>
          if jsTruthy msg then
            match objGet msg "content" with
            | some c =>
              if jsTruthy c then
                { s with
                  handledModel := hm,
                  assistantMessage := s.assistantMessage ++ jsDisplay c }
              else { s with handledModel := hm }
            | none => { s with handledModel := hm }
          else { s with handledModel := hm }
        | none => { s with handledModel := hm }

/-- Process the decoded text of one chunk: split on newlines and run the line
loop over every segment. -/
def processChunkText (s : LoopState) (chunk : List Char) : LoopState :=
  (splitNl chunk).foldl processLine s

/-- Process a sequence of already-decoded text chunks the way the recursive
`readStreamChunk` does: each chunk is split and parsed on its own. -/
def processTextChunks (s : LoopState) (chunks : List (List Char)) : LoopState :=
  chunks.foldl processChunkText s

/-- UTF-8 continuation byte test. -/
def contByte (b : Nat) : Bool := 128 ≤ b && b < 192

/-- Modelled from the spec: one `TextDecoder.decode(value, ...)` call with
streaming enabled, written over the pending bytes of an incomplete trailing
sequence followed by the new chunk. Returns the decoded characters and the
bytes of a trailing incomplete sequence, to be carried to the next call;
invalid sequences decode to U+FFFD as in the non-fatal decoder. Fuel-indexed;
each step consumes at least one byte. -/
def utf8Go : Nat → List Nat → List Char → List Char × List Nat
  | 0, l, acc => (acc.reverse, l)
  | _ + 1, [], acc => (acc.reverse, [])
  | fuel + 1, b :: rest, acc =>
    if b < 128 then utf8Go fuel rest (Char.ofNat b :: acc)
    else if b < 192 then utf8Go fuel rest ('�' :: acc)
    else if b < 224 then
      match rest with
      | [] => (acc.reverse, [b])
      | c1 :: rest2 =>
        if contByte c1 then
          utf8Go fuel rest2 (Char.ofNat ((b - 192) * 64 + (c1 - 128)) :: acc)
        else utf8Go fuel rest ('�' :: acc)
    else if b < 240 then
      match rest with
      | [] => (acc.reverse, [b])
      | [c1] =>
        if contByte c1 then (acc.reverse, [b, c1])
        else utf8Go fuel rest ('�' :: acc)
      | c1 :: c2 :: rest2 =>
        if contByte c1 && contByte c2 then
          utf8Go fuel rest2
            (Char.ofNat ((b - 224) * 4096 + (c1 - 128) * 64 + (c2 - 128)) :: acc)
        else utf8Go fuel rest ('�' :: acc)
    else if b < 248 then
      match rest with
      | [] => (acc.reverse, [b])
      | [c1] =>
        if contByte c1 then (acc.reverse, [b, c1])
        else utf8Go fuel rest ('�' :: acc)
      | [c1, c2] =>
        if contByte c1 && contByte c2 then (acc.reverse, [b, c1, c2])
        else utf8Go fuel rest ('�' :: acc)
      | c1 :: c2 :: c3 :: rest2 =>
        if contByte c1 && contByte c2 && contByte c3 then
          utf8Go fuel rest2
            (Char.ofNat ((b - 240) * 262144 + (c1 - 128) * 4096 +
              (c2 - 128) * 64 + (c3 - 128)) :: acc)
        else utf8Go fuel rest ('�' :: acc)
    else utf8Go fuel rest ('�' :: acc)

/-- Streaming UTF-8 decode of one byte list: decoded text plus the pending
incomplete trailing sequence. -/
def utf8Dec (l : List Nat) : List Char × List Nat :=
  utf8Go l.length l []

/-- One iteration of `readStreamChunk` on a byte chunk: decode with the
pending bytes of the previous call carried in, then split and parse the
decoded text. -/
def processByteChunk (sp : LoopState × List Nat) (chunk : List Nat) :
    LoopState × List Nat :=
  let (text, pending) := utf8Dec (sp.2 ++ chunk)
  (processChunkText sp.1 text, pending)

/-- The full stream-reading loop of `handleStreamingResponse` over the byte
chunks delivered by `reader.read()`, starting from a fresh decoder and loop
state. -/
def runStream (chunks : List (List Nat)) : LoopState :=
  (chunks.foldl processByteChunk (initLoop, [])).1

/-- One entry of `conversationHistory`: `role` and `content` always present,
`model` an optional field (set on assistant messages, absent on user
messages). -/
structure Message where
  role : String
  content : String
  model : Option String
deriving Repr, DecidableEq

/-- The module-level mutable state the protocol layer touches: the in-memory
`conversationHistory` and the `localStorage` snapshot written by
`saveConversationToStorage` (none when the storage key is unset). -/
structure ChatState where
  history : List Message
  storage : Option (List Message)
deriving Repr, DecidableEq

/-- The window `conversationHistory.slice(-20)`: the whole history when shorter than 20,
otherwise the 20 most recent entries in original order. -/
def recentHistory (h : List Message) : List Message :=
  h.drop (h.length - 20)

/-- The JSON request body of `handleStreamingResponse`:
`\x7b model: "cheapest", messages: recentHistory \x7d`. -/
structure RequestBody where
  model : String
  messages : List Message
deriving Repr, DecidableEq

/-- Build the request body from the current history (lines 139-145 of the
source). -/
def buildRequestBody (h : List Message) : RequestBody :=
  ⟨"cheapest", recentHistory h⟩

/-- The key/value pairs `JSON.stringify` emits for one history entry: `role`
and `content` always, `model` exactly when the entry carries one (an
`undefined` optional member is omitted by `JSON.stringify`). -/
def msgFields (m : Message) : List (String × String) :=
  [("role", m.role), ("content", m.content)] ++
    (match m.model with
     | some v => [("model", v)]
     | none => [])

/-- The serialized field names of one history entry in the request body. -/
def fieldNames (m : Message) : List String := (msgFields m).map Prod.fst

/-- The response body stream of one attempt: the byte chunks `reader.read()`
delivers, and whether the read after the last chunk rejects instead of
reporting `done` (a mid-stream network failure). -/
structure BodyStream where
  chunks : List (List Nat)
  readErr : Bool

/-- The network outcome of one `fetch` of `handleStreamingResponse`:
either the fetch promise rejects, or a response arrives with its `ok` flag,
optional `Location` header, and (for 2xx responses that have one) a body
stream. -/
inductive FetchOutcome where
  | netThrow
  | resp (ok : Bool) (location : Option String) (body : Option BodyStream)

/-- Externally visible effects of the protocol layer: `updateStatus` texts,
`addMessage("system", ...)` texts, `window.location.href` assignments, and
the `console.warn` parse-warning count. -/
structure Eff where
  statuses : List String
  sysMessages : List String
  navigations : List String
  warnings : Nat
deriving Repr, DecidableEq

/-- No effects. -/
def emptyEff : Eff := ⟨[], [], [], 0⟩

/-- Concatenate effect records in execution order. -/
def Eff.app (e1 e2 : Eff) : Eff :=
  ⟨e1.statuses ++ e2.statuses, e1.sysMessages ++ e2.sysMessages,
    e1.navigations ++ e2.navigations, e1.warnings + e2.warnings⟩

/-- A single status text as an effect record. -/
def statusEff (m : String) : Eff := ⟨[m], [], [], 0⟩

/-- Result of one `handleStreamingResponse` call: the returned boolean (or a
propagated exception, `Except.error`), the state it leaves behind, its
effects, and the request body it sent. -/
structure AttemptOut where
  result : Except Unit Bool
  state : ChatState
  eff : Eff
  request : RequestBody

/-- The function `handleStreamingResponse` (lines 138-247 of the source): build the
request from the last 20 history entries; a rejected `fetch` propagates as an
exception; a non-ok response returns `true` after navigating when a
`Location` header is present and `false` otherwise; on an ok response the
body reader is dereferenced with a non-null assertion (absent body ⇒ thrown
`TypeError`), the chunks are decoded and parsed, a rejected read propagates,
and on `done` a nonempty accumulated message is appended to the history and
saved. -/
def handleStreamingResponse (st : ChatState) (f : FetchOutcome) : AttemptOut :=
  let req := buildRequestBody st.history
  match f with
  | .netThrow => ⟨.error (), st, emptyEff, req⟩
  | .resp ok loc body =>
    if ok then
      match body with
      | none => ⟨.error (), st, emptyEff, req⟩
      | some bs =>
        let ls := runStream bs.chunks
        let eff : Eff := ⟨ls.statuses, [], [], ls.warnings⟩
        if bs.readErr then ⟨.error (), st, eff, req⟩
        else if ls.assistantMessage = "" then ⟨.ok true, st, eff, req⟩
        else
          let h := st.history ++
            [⟨"assistant", ls.assistantMessage, some ls.handledModel⟩]
          ⟨.ok true, ⟨h, some h⟩, eff, req⟩
    else
      match loc with
      | some l =>
        ⟨.ok true, st, ⟨[], ["Redirecting to authenticate..."], [l], 0⟩, req⟩
      | none => ⟨.ok false, st, emptyEff, req⟩

/-- The constant `MAX_RETRY_ATTEMPTS` (line 12 of the source). -/
def MAX_RETRY_ATTEMPTS : Nat := 3

/-- The constant `RETRY_DELAY`, the base backoff delay in milliseconds (line 13). -/
def RETRY_DELAY : Nat := 1000

/-- The `updateStatus` text announcing a retry. -/
def retryStatusMsg (delay n : Nat) : String :=
  "Request failed, retrying in " ++ toString (delay / 1000) ++ "s... (" ++
    toString n ++ "/" ++ toString MAX_RETRY_ATTEMPTS ++ ")"

/-- Result of `handleStreamingResponseWithRetry` or `sendWrapper`: the final
boolean (or propagated exception), final state, accumulated effects, the
number of attempts made, and the `sleep` delays awaited between attempts in
order. -/
structure SendOut where
  result : Except Unit Bool
  state : ChatState
  eff : Eff
  attempts : Nat
  delays : List Nat

/-- The function `handleStreamingResponseWithRetry` (lines 114-136 of the source): run one
attempt against the environment `env` (the network outcome of each numbered
attempt); an exception propagates; `true` returns; on `false` with
`attemptNumber < MAX_RETRY_ATTEMPTS` report the retry status, sleep
`RETRY_DELAY * 2 ^ (attemptNumber - 1)` and recurse, otherwise report
exhaustion and return `false`. -/
def handleStreamingResponseWithRetry (env : Nat → FetchOutcome)
    (st : ChatState) (attemptNumber : Nat) : SendOut :=
  let a := handleStreamingResponse st (env attemptNumber)
  match a.result with
  | .error e => ⟨.error e, a.state, a.eff, 1, []⟩
  | .ok true => ⟨.ok true, a.state, a.eff, 1, []⟩
  | .ok false =>
    if h : attemptNumber < MAX_RETRY_ATTEMPTS then
      let delay := RETRY_DELAY * 2 ^ (attemptNumber - 1)
      let r := handleStreamingResponseWithRetry env a.state (attemptNumber + 1)
      ⟨r.result, r.state,
        (a.eff.app (statusEff (retryStatusMsg delay attemptNumber))).app r.eff,
        1 + r.attempts, delay :: r.delays⟩
    else
      ⟨.ok false, a.state,
        a.eff.app (statusEff "Request failed after maximum retries"), 1, []⟩
termination_by MAX_RETRY_ATTEMPTS - attemptNumber
decreasing_by omega

/-- The function `sendWrapper` (lines 45-78 of the source), protocol part: run the retry
loop from attempt 1; when it returns `false`, pop the trailing history entry
if its role is `"user"` and save; an exception propagates past the rollback
check (the `try` block has no `catch`). -/
def sendWrapper (env : Nat → FetchOutcome) (st : ChatState) : SendOut :=
  let r := handleStreamingResponseWithRetry env st 1
  match r.result with
  | .ok false =>
    match r.state.history.getLast? with
    | some m =>
      if m.role = "user" then
        let h := r.state.history.dropLast
        ⟨.ok false, ⟨h, some h⟩, r.eff, r.attempts, r.delays⟩
      else r
    | none => r
  | _ => r

/-! ## Evaluation lemmas for single attempts and the retry loop -/

theorem attempt_serverFail (st : ChatState) (b : Option BodyStream) :
    handleStreamingResponse st (.resp false none b) =
      ⟨.ok false, st, emptyEff, buildRequestBody st.history⟩ := rfl

theorem attempt_netThrow (st : ChatState) :
    handleStreamingResponse st .netThrow =
      ⟨.error (), st, emptyEff, buildRequestBody st.history⟩ := rfl

theorem attempt_redirect (st : ChatState) (l : String) (b : Option BodyStream) :
    handleStreamingResponse st (.resp false (some l) b) =
      ⟨.ok true, st, ⟨[], ["Redirecting to authenticate..."], [l], 0⟩,
        buildRequestBody st.history⟩ := rfl

theorem attempt_okNoBody (st : ChatState) (l : Option String) :
    handleStreamingResponse st (.resp true l none) =
      ⟨.error (), st, emptyEff, buildRequestBody st.history⟩ := rfl

theorem attempt_okEmpty (st : ChatState) (l : Option String)
    (chunks : List (List Nat)) (h : (runStream chunks).assistantMessage = "") :
    handleStreamingResponse st (.resp true l (some ⟨chunks, false⟩)) =
      ⟨.ok true, st, ⟨(runStream chunks).statuses, [], [],
        (runStream chunks).warnings⟩, buildRequestBody st.history⟩ := by
  simp [handleStreamingResponse, h]

theorem attempt_okContent (st : ChatState) (l : Option String)
    (chunks : List (List Nat)) (h : (runStream chunks).assistantMessage ≠ "") :
    handleStreamingResponse st (.resp true l (some ⟨chunks, false⟩)) =
      ⟨.ok true,
        ⟨st.history ++ [⟨"assistant", (runStream chunks).assistantMessage,
            some (runStream chunks).handledModel⟩],
          some (st.history ++ [⟨"assistant", (runStream chunks).assistantMessage,
            some (runStream chunks).handledModel⟩])⟩,
        ⟨(runStream chunks).statuses, [], [], (runStream chunks).warnings⟩,
        buildRequestBody st.history⟩ := by
  simp [handleStreamingResponse, h]

theorem retry_of_ok_true (env : Nat → FetchOutcome) (st : ChatState) (n : Nat)
    (h : (handleStreamingResponse st (env n)).result = .ok true) :
    handleStreamingResponseWithRetry env st n =
      ⟨.ok true, (handleStreamingResponse st (env n)).state,
        (handleStreamingResponse st (env n)).eff, 1, []⟩ := by
  rw [handleStreamingResponseWithRetry, h]

theorem retry_of_error (env : Nat → FetchOutcome) (st : ChatState) (n : Nat)
    (h : (handleStreamingResponse st (env n)).result = .error ()) :
    handleStreamingResponseWithRetry env st n =
      ⟨.error (), (handleStreamingResponse st (env n)).state,
        (handleStreamingResponse st (env n)).eff, 1, []⟩ := by
  rw [handleStreamingResponseWithRetry, h]

theorem retry_step_serverFail (env : Nat → FetchOutcome) (st : ChatState)
    (n : Nat) (b : Option BodyStream)
    (h : env n = .resp false none b) (hn : n < MAX_RETRY_ATTEMPTS) :
    handleStreamingResponseWithRetry env st n =
      ⟨(handleStreamingResponseWithRetry env st (n + 1)).result,
        (handleStreamingResponseWithRetry env st (n + 1)).state,
        (statusEff (retryStatusMsg (RETRY_DELAY * 2 ^ (n - 1)) n)).app
          (handleStreamingResponseWithRetry env st (n + 1)).eff,
        1 + (handleStreamingResponseWithRetry env st (n + 1)).attempts,
        RETRY_DELAY * 2 ^ (n - 1) ::
          (handleStreamingResponseWithRetry env st (n + 1)).delays⟩ := by
  conv_lhs => rw [handleStreamingResponseWithRetry]
  rw [h, attempt_serverFail]
  simp only [dif_pos hn]
  rfl

theorem retry_exhaust_serverFail (env : Nat → FetchOutcome) (st : ChatState)
    (b : Option BodyStream) (h : env 3 = .resp false none b) :
    handleStreamingResponseWithRetry env st 3 =
      ⟨.ok false, st, statusEff "Request failed after maximum retries", 1,
        []⟩ := by
  conv_lhs => rw [handleStreamingResponseWithRetry]
  rw [h, attempt_serverFail]
  rfl

theorem retry_all_fail (env : Nat → FetchOutcome) (st : ChatState)
    (b1 b2 b3 : Option BodyStream)
    (h1 : env 1 = .resp false none b1) (h2 : env 2 = .resp false none b2)
    (h3 : env 3 = .resp false none b3) :
    handleStreamingResponseWithRetry env st 1 =
      ⟨.ok false, st,
        ⟨[retryStatusMsg 1000 1, retryStatusMsg 2000 2,
          "Request failed after maximum retries"], [], [], 0⟩,
        3, [1000, 2000]⟩ := by
  rw [retry_step_serverFail env st 1 b1 h1 (by decide),
    retry_step_serverFail env st 2 b2 h2 (by decide),
    retry_exhaust_serverFail env st b3 h3]
  rfl

/-! ## Line-boundary lemmas for chunked stream decoding -/
/-- Merge the line lists of two adjacent text pieces: the last (unterminated)
segment of the first piece joins the first segment of the second. -/
def glue : List (List Char) → List (List Char) → List (List Char)
  | [], ys => ys
  | x :: xs, ys =>
    match xs with
    | [] =>
      match ys with
      | [] => [x]
      | y :: yt => (x ++ y) :: yt
    | x2 :: xt => x :: glue (x2 :: xt) ys

theorem splitNl_ne_nil (l : List Char) : splitNl l ≠ [] := by
  induction l with
  | nil => simp [splitNl]
  | cons c rest ih =>
    simp only [splitNl]
    split
    · simp
    · split
      · simp
      · simp

theorem splitNl_append (a b : List Char) :
    splitNl (a ++ b) = glue (splitNl a) (splitNl b) := by
  induction a with
  | nil =>
    cases hb : splitNl b with
    | nil => exact absurd hb (splitNl_ne_nil b)
    | cons y yt => simp [splitNl, glue, hb]
  | cons c a' ih =>
    rw [List.cons_append]
    by_cases hc : c = '\n'
    · subst hc
      rw [show splitNl ('\n' :: (a' ++ b)) = [] :: splitNl (a' ++ b) from by
        simp [splitNl]]
      rw [show splitNl ('\n' :: a') = [] :: splitNl a' from by simp [splitNl]]
      cases ha : splitNl a' with
      | nil => exact absurd ha (splitNl_ne_nil a')
      | cons l ls => rw [ih, ha]; rfl
    · rw [show splitNl (c :: (a' ++ b)) =
          (match splitNl (a' ++ b) with
           | [] => [[c]]
           | l :: ls => (c :: l) :: ls) from by simp [splitNl, hc]]
      rw [show splitNl (c :: a') =
          (match splitNl a' with
           | [] => [[c]]
           | l :: ls => (c :: l) :: ls) from by simp [splitNl, hc]]
      rw [ih]
      cases ha : splitNl a' with
      | nil => exact absurd ha (splitNl_ne_nil a')
      | cons l ls =>
        cases ls with
        | nil =>
          cases hb : splitNl b with
          | nil => exact absurd hb (splitNl_ne_nil b)
          | cons y yt => simp [glue]
        | cons l2 lt => simp [glue]



theorem processLine_nil (s : LoopState) : processLine s [] = s := rfl

theorem glue_nil_head (xs : List (List Char)) (ys : List (List Char))
    (h : xs ≠ []) : glue xs ([] :: ys) = xs ++ ys := by
  induction xs with
  | nil => exact absurd rfl h
  | cons x xt ih =>
    cases xt with
    | nil => simp [glue]
    | cons x2 xtt => simp [glue, ih]

theorem splitNl_concat_nl (q : List Char) :
    splitNl (q ++ ['\n']) = splitNl q ++ [[]] := by
  rw [splitNl_append]
  rw [show splitNl ['\n'] = [] :: [[]] from rfl]
  exact glue_nil_head _ _ (splitNl_ne_nil q)

theorem glue_append_single (r : List (List Char)) (x : List Char)
    (ys : List (List Char)) : glue (r ++ [x]) ys = r ++ glue [x] ys := by
  induction r with
  | nil => rfl
  | cons z r' ih =>
    cases hr : r' ++ [x] with
    | nil => simp at hr
    | cons w wt =>
      simp only [List.cons_append, glue, hr]
      rw [← hr, ih]
      rfl

theorem processChunkText_append_nl (q b : List Char) (s : LoopState) :
    processChunkText s ((q ++ ['\n']) ++ b) =
      processChunkText (processChunkText s (q ++ ['\n'])) b := by
  unfold processChunkText
  rw [splitNl_append, splitNl_concat_nl, glue_append_single]
  cases hb : splitNl b with
  | nil => exact absurd hb (splitNl_ne_nil b)
  | cons y yt =>
    rw [show glue [[]] (y :: yt) = y :: yt from rfl]
    rw [List.foldl_append, List.foldl_append]
    rfl


/-! ## sendWrapper-level evaluation lemmas -/
/-- The request body is built before the fetch outcome is examined, so every
branch of `handleStreamingResponse` reports the same request. -/
theorem request_eq (st : ChatState) (f : FetchOutcome) :
    (handleStreamingResponse st f).request = buildRequestBody st.history := by
  cases f with
  | netThrow => rfl
  | resp ok loc body =>
    cases ok with
    | false => cases loc <;> rfl
    | true =>
      cases body with
      | none => rfl
      | some bs =>
        simp only [handleStreamingResponse]
        split_ifs <;> rfl

/-- The bounded window actually serialized into one request. -/
def sentWindow (st : ChatState) (f : FetchOutcome) : List Message :=
  (handleStreamingResponse st f).request.messages

theorem sendWrapper_first_ok (env : Nat → FetchOutcome) (st : ChatState)
    (h : (handleStreamingResponse st (env 1)).result = .ok true) :
    sendWrapper env st =
      ⟨.ok true, (handleStreamingResponse st (env 1)).state,
        (handleStreamingResponse st (env 1)).eff, 1, []⟩ := by
  have hr := retry_of_ok_true env st 1 h
  rw [sendWrapper, hr]

theorem sendWrapper_first_error (env : Nat → FetchOutcome) (st : ChatState)
    (h : (handleStreamingResponse st (env 1)).result = .error ()) :
    sendWrapper env st =
      ⟨.error (), (handleStreamingResponse st (env 1)).state,
        (handleStreamingResponse st (env 1)).eff, 1, []⟩ := by
  have hr := retry_of_error env st 1 h
  rw [sendWrapper, hr]

/-- Exhaustion with a trailing user message: all three attempts classify as
failed, the retry loop returns `false`, and `sendWrapper` pops the user
message and saves. -/
theorem sendWrapper_all_fail (env : Nat → FetchOutcome) (prior : List Message)
    (u : Message) (σ : Option (List Message)) (hu : u.role = "user")
    (b1 b2 b3 : Option BodyStream)
    (h1 : env 1 = .resp false none b1) (h2 : env 2 = .resp false none b2)
    (h3 : env 3 = .resp false none b3) :
    sendWrapper env ⟨prior ++ [u], σ⟩ =
      ⟨.ok false, ⟨prior, some prior⟩,
        ⟨[retryStatusMsg 1000 1, retryStatusMsg 2000 2,
          "Request failed after maximum retries"], [], [], 0⟩,
        3, [1000, 2000]⟩ := by
  have hr := retry_all_fail env ⟨prior ++ [u], σ⟩ b1 b2 b3 h1 h2 h3
  rw [sendWrapper, hr]
  simp only [List.getLast?_concat, hu, if_pos, List.dropLast_concat]

/-! ## Concrete fixtures used by witnesses and counterexamples -/

/-- Bytes of an ASCII string. -/
def strBytes (s : String) : List Nat := s.toList.map Char.toNat

/-- A conversation holding one freshly appended user message, already saved
(the state `sendWrapper` starts from after `sendMessage` pushes the turn). -/
def oneUserSt : ChatState :=
  ⟨[⟨"user", "hi", none⟩], some [⟨"user", "hi", none⟩]⟩

/-- An environment in which every fetch rejects at the network layer. -/
def netEnv : Nat → FetchOutcome := fun _ => .netThrow

/-- An environment in which every attempt gets a non-2xx response without a
`Location` header. -/
def failEnv : Nat → FetchOutcome := fun _ => .resp false none none

/-- An environment in which every attempt gets a non-2xx response carrying a
`Location` header. -/
def redirEnv : Nat → FetchOutcome := fun _ => .resp false (some "/login") none

/-- An environment in which every attempt gets a 2xx response whose stream
ends immediately with no content. -/
def emptyEnv : Nat → FetchOutcome := fun _ => .resp true none (some ⟨[], false⟩)

/-- One stream record carrying both a content delta and a model name. -/
def modelChunk : List Nat :=
  strBytes "\x7b\"message\":\x7b\"content\":\"Hi\"\x7d,\"model\":\"m1\"\x7d\n"

/-- The three record lines of the §8 reconstruction test. -/
def c3Line1 : List Char := "\x7b\"message\":\x7b\"content\":\"Hel\"\x7d\x7d".toList

/-- Second record line of the §8 reconstruction test. -/
def c3Line2 : List Char := "\x7b\"message\":\x7b\"content\":\"lo\"\x7d\x7d".toList

/-- Final usage record line of the §8 reconstruction test. -/
def c3Line3 : List Char := "\x7b\"Credits\":3\x7d".toList

/-- The record lines of the §8 reconstruction test, in stream order. -/
def c3Lines : List (List Char) := [c3Line1, c3Line2, c3Line3]

/-- The malformed line of the §8 reconstruction test. -/
def c3Bad : List Char := "not json".toList

/-- Assemble a stream text in which each given line is newline-terminated. -/
def mkLineStream (ls : List (List Char)) : List Char :=
  (ls.map (fun l => l ++ ['\n'])).flatten

/-- Insert a line at position `n` of a line list. -/
def insertAt (n : Nat) (x : List Char) (ls : List (List Char)) :
    List (List Char) :=
  ls.take n ++ [x] ++ ls.drop n

/-! ## Claim theorems -/
/-- C2: a non-2xx response carrying a `Location` header makes the exchange an
auth redirect: `sendWrapper` reports success, makes no further attempt, waits
no backoff delay, leaves the conversation (and the pending user message)
untouched, and surfaces the navigation target. -/
theorem c2_auth_redirect (st : ChatState) (l : String) (b : Option BodyStream)
    (env : Nat → FetchOutcome) (h : env 1 = .resp false (some l) b) :
    (sendWrapper env st).result = .ok true ∧
    (sendWrapper env st).state = st ∧
    (sendWrapper env st).attempts = 1 ∧
    (sendWrapper env st).delays = [] ∧
    (sendWrapper env st).eff.navigations = [l] := by
  have hres : (handleStreamingResponse st (env 1)).result = .ok true := by
    rw [h, attempt_redirect]
  have hsw := sendWrapper_first_ok env st hres
  rw [hsw, h, attempt_redirect]
  exact ⟨rfl, rfl, rfl, rfl, rfl⟩

/-- Witness for C2 at a concrete redirect environment. -/
theorem c2_auth_redirect_witness :
    (sendWrapper redirEnv oneUserSt).result = .ok true ∧
    (sendWrapper redirEnv oneUserSt).state = oneUserSt ∧
    (sendWrapper redirEnv oneUserSt).attempts = 1 ∧
    (sendWrapper redirEnv oneUserSt).delays = [] ∧
    (sendWrapper redirEnv oneUserSt).eff.navigations = ["/login"] :=
  c2_auth_redirect oneUserSt "/login" none redirEnv rfl

/-- When the retry loop returns `false`, the rollback check of `sendWrapper`
keeps the delays. -/
theorem sendWrapper_fail_delays (env : Nat → FetchOutcome) (st : ChatState)
    (h : (handleStreamingResponseWithRetry env st 1).result = .ok false) :
    (sendWrapper env st).delays =
      (handleStreamingResponseWithRetry env st 1).delays := by
  rw [sendWrapper, h]
  split
  · split
    · split_ifs <;> rfl
    · rfl
  · next x hne => exact absurd rfl hne

/-- When the retry loop returns `false`, the rollback check of `sendWrapper`
keeps the attempt count. -/
theorem sendWrapper_fail_attempts (env : Nat → FetchOutcome) (st : ChatState)
    (h : (handleStreamingResponseWithRetry env st 1).result = .ok false) :
    (sendWrapper env st).attempts =
      (handleStreamingResponseWithRetry env st 1).attempts := by
  rw [sendWrapper, h]
  split
  · split
    · split_ifs <;> rfl
    · rfl
  · next x hne => exact absurd rfl hne

/-- When the retry loop returns `false`, the rollback check of `sendWrapper`
keeps the accumulated effects. -/
theorem sendWrapper_fail_eff (env : Nat → FetchOutcome) (st : ChatState)
    (h : (handleStreamingResponseWithRetry env st 1).result = .ok false) :
    (sendWrapper env st).eff =
      (handleStreamingResponseWithRetry env st 1).eff := by
  rw [sendWrapper, h]
  split
  · split
    · split_ifs <;> rfl
    · rfl
  · next x hne => exact absurd rfl hne

/-- C4: with `RETRY_DELAY = 1000` and `MAX_RETRY_ATTEMPTS = 3`, three failed
attempts produce exactly the waits `1000 * 2 ^ 0` before attempt 2 and
`1000 * 2 ^ 1` before attempt 3, and no fourth attempt is made. -/
theorem c4_backoff (st : ChatState) (env : Nat → FetchOutcome)
    (b1 b2 b3 : Option BodyStream)
    (h1 : env 1 = .resp false none b1) (h2 : env 2 = .resp false none b2)
    (h3 : env 3 = .resp false none b3) :
    (sendWrapper env st).delays =
      [RETRY_DELAY * 2 ^ (1 - 1), RETRY_DELAY * 2 ^ (2 - 1)] ∧
    (sendWrapper env st).delays = [1000, 2000] ∧
    (sendWrapper env st).attempts = 3 := by
  have hr := retry_all_fail env st b1 b2 b3 h1 h2 h3
  have hd := sendWrapper_fail_delays env st (by rw [hr])
  have ha := sendWrapper_fail_attempts env st (by rw [hr])
  rw [hr] at hd ha
  exact ⟨by rw [hd]; rfl, by rw [hd], by rw [ha]⟩

/-- Witness for C4 at a concrete always-failing environment. -/
theorem c4_backoff_witness :
    (sendWrapper failEnv oneUserSt).delays =
      [RETRY_DELAY * 2 ^ (1 - 1), RETRY_DELAY * 2 ^ (2 - 1)] ∧
    (sendWrapper failEnv oneUserSt).delays = [1000, 2000] ∧
    (sendWrapper failEnv oneUserSt).attempts = 3 :=
  c4_backoff oneUserSt failEnv none none none rfl rfl rfl

/-- C5: the history window serialized into any request holds at most 20
messages, is a suffix of the stored conversation (so messages keep their
original oldest-first order), and holds exactly 20 when the conversation has
at least 20 messages. -/
theorem c5_window (st : ChatState) (f : FetchOutcome) :
    (sentWindow st f).length ≤ 20 ∧
    (∃ p, st.history = p ++ sentWindow st f) ∧
    (20 ≤ st.history.length → (sentWindow st f).length = 20) := by
  have hr : sentWindow st f = st.history.drop (st.history.length - 20) := by
    unfold sentWindow
    rw [request_eq]
    rfl
  refine ⟨?_, ⟨st.history.take (st.history.length - 20), ?_⟩, fun h => ?_⟩
  · rw [hr, List.length_drop]
    omega
  · rw [hr, List.take_append_drop]
  · rw [hr, List.length_drop]
    omega

/-- A 21-message conversation used to witness the exact-20 window. -/
def hist21 : List Message := List.replicate 21 ⟨"user", "m", none⟩

/-- Witness for C5: on a 21-message conversation the sent window has exactly
20 messages. -/
theorem c5_window_witness :
    (sentWindow ⟨hist21, none⟩ .netThrow).length = 20 :=
  (c5_window ⟨hist21, none⟩ .netThrow).2.2 (by decide)

/-- C9: a 2xx exchange whose stream ends with no accumulated content reports
success while appending nothing: the in-memory history and the persisted
snapshot are exactly as they were after the user message was appended. -/
theorem c9_empty_completion (st : ChatState) (env : Nat → FetchOutcome)
    (chunks : List (List Nat))
    (h1 : env 1 = .resp true none (some ⟨chunks, false⟩))
    (he : (runStream chunks).assistantMessage = "") :
    (sendWrapper env st).result = .ok true ∧
    (sendWrapper env st).state = st := by
  have ha := attempt_okEmpty st none chunks he
  have hres : (handleStreamingResponse st (env 1)).result = .ok true := by
    rw [h1, ha]
  have hsw := sendWrapper_first_ok env st hres
  rw [hsw, h1, ha]
  exact ⟨rfl, rfl⟩

/-- Witness for C9: the empty stream. -/
theorem c9_empty_completion_witness :
    (sendWrapper emptyEnv oneUserSt).result = .ok true ∧
    (sendWrapper emptyEnv oneUserSt).state = oneUserSt :=
  c9_empty_completion oneUserSt emptyEnv [] rfl rfl

/-- C10: on a 2xx response without a body the reader non-null assertion makes
the first read throw instead of returning the classified `false` outcome,
while every 2xx response that does carry a (cleanly readable) body completes
without throwing. -/
theorem c10_missing_body (st : ChatState) (l : Option String) :
    (handleStreamingResponse st (.resp true l none)).result = .error () ∧
    (handleStreamingResponse st (.resp true l none)).result ≠ .ok false ∧
    (∀ chunks, (handleStreamingResponse st
      (.resp true l (some ⟨chunks, false⟩))).result = .ok true) := by
  refine ⟨rfl, by simp [attempt_okNoBody], fun chunks => ?_⟩
  by_cases he : (runStream chunks).assistantMessage = ""
  · rw [attempt_okEmpty st l chunks he]
  · rw [attempt_okContent st l chunks he]

/-- C1 (amended): an exchange that exhausts all retry attempts removes
exactly the trailing user message, restoring the pre-append conversation; an
exchange that succeeds with nonempty accumulated text appends exactly one
assistant message after the existing ones; an exchange that succeeds with
empty accumulated text leaves the conversation unchanged. -/
theorem c1_rollback_append (prior : List Message) (u : Message)
    (σ : Option (List Message)) (env : Nat → FetchOutcome)
    (hu : u.role = "user") :
    (∀ b1 b2 b3 : Option BodyStream,
      env 1 = .resp false none b1 → env 2 = .resp false none b2 →
      env 3 = .resp false none b3 →
      (sendWrapper env ⟨prior ++ [u], σ⟩).result = .ok false ∧
      (sendWrapper env ⟨prior ++ [u], σ⟩).state.history = prior) ∧
    (∀ chunks : List (List Nat),
      env 1 = .resp true none (some ⟨chunks, false⟩) →
      (sendWrapper env ⟨prior ++ [u], σ⟩).result = .ok true ∧
      ((runStream chunks).assistantMessage ≠ "" →
        (sendWrapper env ⟨prior ++ [u], σ⟩).state.history =
          (prior ++ [u]) ++ [⟨"assistant", (runStream chunks).assistantMessage,
            some (runStream chunks).handledModel⟩]) ∧
      ((runStream chunks).assistantMessage = "" →
        (sendWrapper env ⟨prior ++ [u], σ⟩).state.history = prior ++ [u])) := by
  constructor
  · intro b1 b2 b3 h1 h2 h3
    rw [sendWrapper_all_fail env prior u σ hu b1 b2 b3 h1 h2 h3]
    exact ⟨rfl, rfl⟩
  · intro chunks h1
    by_cases he : (runStream chunks).assistantMessage = ""
    · have ha := attempt_okEmpty (⟨prior ++ [u], σ⟩ : ChatState) none chunks he
      have hres : (handleStreamingResponse ⟨prior ++ [u], σ⟩ (env 1)).result =
          .ok true := by rw [h1, ha]
      have hsw := sendWrapper_first_ok env ⟨prior ++ [u], σ⟩ hres
      rw [hsw, h1, ha]
      exact ⟨rfl, fun hne => absurd he hne, fun _ => rfl⟩
    · have ha := attempt_okContent (⟨prior ++ [u], σ⟩ : ChatState) none chunks he
      have hres : (handleStreamingResponse ⟨prior ++ [u], σ⟩ (env 1)).result =
          .ok true := by rw [h1, ha]
      have hsw := sendWrapper_first_ok env ⟨prior ++ [u], σ⟩ hres
      rw [hsw, h1, ha]
      exact ⟨rfl, fun _ => rfl, fun hc => absurd hc he⟩

/-- Witness for C1 at a concrete exhausted environment: the user turn is
rolled back and the conversation returns to its pre-append (empty) state. -/
theorem c1_rollback_append_witness :
    (sendWrapper failEnv ⟨[] ++ [⟨"user", "hi", none⟩], none⟩).result =
      .ok false ∧
    (sendWrapper failEnv ⟨[] ++ [⟨"user", "hi", none⟩], none⟩).state.history =
      [] :=
  (c1_rollback_append [] ⟨"user", "hi", none⟩ none failEnv rfl).1
    none none none rfl rfl rfl

/-- Counterexample for C1 as stated: a 2xx exchange whose stream carries no
content delta succeeds, yet no assistant message is appended — the history
still holds only the user message. -/
theorem c1_counterexample :
    (sendWrapper emptyEnv oneUserSt).result = .ok true ∧
    (sendWrapper emptyEnv oneUserSt).state.history = oneUserSt.history ∧
    (sendWrapper emptyEnv oneUserSt).state.history.length = 1 := by
  have ha := attempt_okEmpty oneUserSt none [] rfl
  have hres : (handleStreamingResponse oneUserSt (emptyEnv 1)).result =
      .ok true := by rw [show emptyEnv 1 = .resp true none (some ⟨[], false⟩) from rfl, ha]
  have hsw := sendWrapper_first_ok emptyEnv oneUserSt hres
  rw [hsw, show emptyEnv 1 = .resp true none (some ⟨[], false⟩) from rfl, ha]
  exact ⟨rfl, rfl, rfl⟩

/-- C6 (amended): a `ServerFailure` (non-2xx, no redirect signal) is retried
up to the attempt ceiling with exponential backoff, surfaces the final
failure as a status message, and rolls back the speculative user turn; a
`NetworkFailure` (rejected fetch) instead propagates as an uncaught
exception: one attempt, no backoff, no status message, no rollback. -/
theorem c6_failure_taxonomy (prior : List Message) (u : Message)
    (σ : Option (List Message)) (env : Nat → FetchOutcome)
    (hu : u.role = "user") :
    (∀ b1 b2 b3 : Option BodyStream,
      env 1 = .resp false none b1 → env 2 = .resp false none b2 →
      env 3 = .resp false none b3 →
      (sendWrapper env ⟨prior ++ [u], σ⟩).result = .ok false ∧
      (sendWrapper env ⟨prior ++ [u], σ⟩).attempts = 3 ∧
      (sendWrapper env ⟨prior ++ [u], σ⟩).delays = [1000, 2000] ∧
      "Request failed after maximum retries" ∈
        (sendWrapper env ⟨prior ++ [u], σ⟩).eff.statuses ∧
      (sendWrapper env ⟨prior ++ [u], σ⟩).state.history = prior) ∧
    (env 1 = .netThrow →
      (sendWrapper env ⟨prior ++ [u], σ⟩).result = .error () ∧
      (sendWrapper env ⟨prior ++ [u], σ⟩).attempts = 1 ∧
      (sendWrapper env ⟨prior ++ [u], σ⟩).delays = [] ∧
      (sendWrapper env ⟨prior ++ [u], σ⟩).eff.statuses = [] ∧
      (sendWrapper env ⟨prior ++ [u], σ⟩).state.history = prior ++ [u]) := by
  constructor
  · intro b1 b2 b3 h1 h2 h3
    rw [sendWrapper_all_fail env prior u σ hu b1 b2 b3 h1 h2 h3]
    refine ⟨rfl, rfl, rfl, ?_, rfl⟩
    simp
  · intro h1
    have hres : (handleStreamingResponse ⟨prior ++ [u], σ⟩ (env 1)).result =
        .error () := by rw [h1, attempt_netThrow]
    have hsw := sendWrapper_first_error env ⟨prior ++ [u], σ⟩ hres
    rw [hsw, h1, attempt_netThrow]
    exact ⟨rfl, rfl, rfl, rfl, rfl⟩

/-- Witness for C6 at concrete environments (exhaustion branch). -/
theorem c6_failure_taxonomy_witness :
    (sendWrapper failEnv ⟨[] ++ [⟨"user", "hi", none⟩], none⟩).attempts = 3 ∧
    "Request failed after maximum retries" ∈
      (sendWrapper failEnv ⟨[] ++ [⟨"user", "hi", none⟩], none⟩).eff.statuses :=
  ⟨((c6_failure_taxonomy [] ⟨"user", "hi", none⟩ none failEnv rfl).1
      none none none rfl rfl rfl).2.1,
    ((c6_failure_taxonomy [] ⟨"user", "hi", none⟩ none failEnv rfl).1
      none none none rfl rfl rfl).2.2.2.1⟩

/-- Counterexample for C6 as stated: a rejected fetch (a `NetworkFailure`) is
not retried — a single attempt is made with no backoff wait, no failure
status is surfaced, and the speculative user message is not rolled back; the
exception escapes `sendWrapper`. -/
theorem c6_counterexample :
    (sendWrapper netEnv oneUserSt).attempts = 1 ∧
    (sendWrapper netEnv oneUserSt).delays = [] ∧
    (sendWrapper netEnv oneUserSt).eff.statuses = [] ∧
    (sendWrapper netEnv oneUserSt).state.history = oneUserSt.history ∧
    (sendWrapper netEnv oneUserSt).result = .error () := by
  have hres : (handleStreamingResponse oneUserSt (netEnv 1)).result =
      .error () := by rw [show netEnv 1 = .netThrow from rfl, attempt_netThrow]
  have hsw := sendWrapper_first_error netEnv oneUserSt hres
  rw [hsw, show netEnv 1 = .netThrow from rfl, attempt_netThrow]
  exact ⟨rfl, rfl, rfl, rfl, rfl⟩

/-- C3: the three-record stream reconstructs the assistant text `"Hello"` and
reports exactly the credits notice `"Credits used: 3"`; interleaving the
malformed line `not json` at any of the four positions changes neither. -/
theorem c3_reconstruction :
    ((processChunkText initLoop (mkLineStream c3Lines)).assistantMessage =
        "Hello" ∧
      (processChunkText initLoop (mkLineStream c3Lines)).statuses =
        ["Credits used: 3"]) ∧
    ∀ i, i ≤ 3 →
      (processChunkText initLoop
          (mkLineStream (insertAt i c3Bad c3Lines))).assistantMessage =
        "Hello" ∧
      (processChunkText initLoop
          (mkLineStream (insertAt i c3Bad c3Lines))).statuses =
        ["Credits used: 3"] := by
  refine ⟨⟨by decide, by decide⟩, ?_⟩
  intro i hi
  interval_cases i <;> exact ⟨by decide, by decide⟩

/-- Witness for C3: insertion at position 1. -/
theorem c3_reconstruction_witness :
    (processChunkText initLoop
        (mkLineStream (insertAt 1 c3Bad c3Lines))).assistantMessage =
      "Hello" ∧
    (processChunkText initLoop
        (mkLineStream (insertAt 1 c3Bad c3Lines))).statuses =
      ["Credits used: 3"] :=
  c3_reconstruction.2 1 (by decide)

/-- First byte chunk of the C7 counterexample: the record
`\x7b"message":\x7b"content":"é"\x7d\x7d` cut inside the two-byte UTF-8
sequence of `é`. -/
def c7chunk1 : List Nat :=
  strBytes "\x7b\"message\":\x7b\"content\":\"" ++ [195]

/-- Second byte chunk of the C7 counterexample: the remainder of the split
record and the terminating newline. -/
def c7chunk2 : List Nat := [169] ++ strBytes "\"\x7d\x7d" ++ [10]

/-- C7 (amended): chunk boundaries that fall only between complete lines
(each decoded chunk is empty or newline-terminated) leave the whole loop
state — reconstructed text, model, statuses, and warning count — exactly as
for the unchunked stream; a boundary inside a line (which includes every
boundary splitting a multi-byte character) is not covered, and loses that
record (see the counterexample). -/
theorem c7_line_aligned_chunking (chunks : List (List Char)) (s : LoopState)
    (h : ∀ c ∈ chunks, c = [] ∨ ∃ q, c = q ++ ['\n']) :
    processTextChunks s chunks = processChunkText s chunks.flatten := by
  induction chunks generalizing s with
  | nil => rfl
  | cons c rest ih =>
    have hc := h c (List.mem_cons_self c rest)
    have hrest : ∀ x ∈ rest, x = [] ∨ ∃ q, x = q ++ ['\n'] :=
      fun x hx => h x (List.mem_cons_of_mem c hx)
    rw [List.flatten_cons]
    cases hc with
    | inl he =>
      subst he
      rw [show processTextChunks s ([] :: rest) =
        processTextChunks (processChunkText s []) rest from rfl]
      rw [show processChunkText s [] = s from rfl, List.nil_append]
      exact ih s hrest
    | inr hq =>
      obtain ⟨q, hq⟩ := hq
      subst hq
      rw [show processTextChunks s ((q ++ ['\n']) :: rest) =
        processTextChunks (processChunkText s (q ++ ['\n'])) rest from rfl]
      rw [ih _ hrest, processChunkText_append_nl]

/-- Witness for C7: the two newline-terminated record lines of the §8 stream,
chunked one line per chunk, give the same state as the joined stream. -/
theorem c7_line_aligned_chunking_witness :
    processTextChunks initLoop [c3Line1 ++ ['\n'], c3Line2 ++ ['\n']] =
      processChunkText initLoop
        ([c3Line1 ++ ['\n'], c3Line2 ++ ['\n']] : List (List Char)).flatten :=
  c7_line_aligned_chunking [c3Line1 ++ ['\n'], c3Line2 ++ ['\n']] initLoop
    (by
      intro c hc
      simp only [List.mem_cons, List.not_mem_nil, or_false] at hc
      rcases hc with rfl | rfl
      · exact Or.inr ⟨c3Line1, rfl⟩
      · exact Or.inr ⟨c3Line2, rfl⟩)

/-- Counterexample for C7 as stated: a chunk boundary splitting the two-byte
character `é` (and hence its record line) produces two malformed-record
warnings and loses the record's content, whereas the unchunked stream parses
it cleanly into `"é"`. -/
theorem c7_counterexample :
    (runStream [c7chunk1, c7chunk2]).warnings = 2 ∧
    (runStream [c7chunk1 ++ c7chunk2]).warnings = 0 ∧
    (runStream [c7chunk1, c7chunk2]).assistantMessage = "" ∧
    (runStream [c7chunk1 ++ c7chunk2]).assistantMessage = "é" := by
  exact ⟨by decide, by decide, by decide, by decide⟩

/-- C8 (amended): every request body carries `model = "cheapest"`, and each
serialized message of the bounded window carries its `role` and `content`
fields, plus a `model` field exactly when the stored message has one
(assistant messages do) — never an `id` or `timestamp` field. -/
theorem c8_body_fields (st : ChatState) (f : FetchOutcome) (m : Message)
    (hm : m ∈ sentWindow st f) :
    (handleStreamingResponse st f).request.model = "cheapest" ∧
    (m.model = none → fieldNames m = ["role", "content"]) ∧
    (∀ v, m.model = some v → fieldNames m = ["role", "content", "model"]) ∧
    "id" ∉ fieldNames m ∧
    "timestamp" ∉ fieldNames m := by
  refine ⟨?_, fun h => ?_, fun v h => ?_, ?_, ?_⟩
  · rw [request_eq]
    rfl
  · simp [fieldNames, msgFields, h]
  · simp [fieldNames, msgFields, h]
  · cases h : m.model <;> simp [fieldNames, msgFields, h]
  · cases h : m.model <;> simp [fieldNames, msgFields, h]

/-- Witness for C8 on a concrete one-message window. -/
theorem c8_body_fields_witness :
    (handleStreamingResponse oneUserSt .netThrow).request.model =
      "cheapest" ∧
    fieldNames ⟨"user", "hi", none⟩ = ["role", "content"] :=
  ⟨(c8_body_fields oneUserSt .netThrow ⟨"user", "hi", none⟩ (by decide)).1,
    (c8_body_fields oneUserSt .netThrow ⟨"user", "hi", none⟩ (by decide)).2.1
      rfl⟩

/-- Counterexample for C8 as stated: after one successful exchange the
history's assistant entry carries a `model` field, and the next request body
serializes it — its field list is `role`, `content`, `model`, not only `role`
and `content`. -/
theorem c8_counterexample :
    (sentWindow
        (handleStreamingResponse oneUserSt
          (.resp true none (some ⟨[modelChunk], false⟩))).state
        .netThrow).map fieldNames =
      [["role", "content"], ["role", "content", "model"]] := by
  decide

end Chat
